import Mathlib

/-!
Verification of the training/evaluation driver in `correspondence.ipynb`
(Harmonic Surface Networks, correspondence experiment).

The notebook is a linear experiment driver: configuration, dataset assembly,
model assembly (`Net`), a 100-epoch training loop with a one-shot learning-rate
schedule step, and a single evaluation pass.  We embed the driver shallowly:

* the forward pass of `Net` is embedded as a shape-and-dataflow semantics:
  tensors are tracked by their shapes, layer invocations and the
  pooling/unpooling handoff are recorded in an event trace;
* the training loop is embedded as a state machine over an explicit system
  state (model parameters version, train/eval mode, optimizer learning rate
  and step count, the fixed target vector), with a trace of per-batch
  operations;
* the test function is embedded value-level over rational-valued model
  outputs.

The equivariant layer library (`nn`), the transforms and the dataset readers
are external to the notebook; their interface contracts (shape behaviour of
residual blocks, pooling and unpooling) are modelled from the spec where
needed and marked as such.
-/

namespace HSN

/-! ## Configuration (Settings cell of the notebook) -/

/-- Maximum rotation order for streams (`max_order = 1`). -/
def max_order : Nat := 1

/-- Number of rings in the radial profile (`n_rings = 2`). -/
def n_rings : Nat := 2

/-- Number of filters per block (`nf = [16, 32]`). -/
def nf : List Nat := [16, 32]

/-- Number of datasets per batch (`batch_size = 1`). -/
def batch_size : Nat := 1

/-! ## Mesh-sample data objects

A mesh-sample object (`torch_geometric` `Data`) is modelled by an identity
token, its fine-scale vertex count, its coarse-scale vertex count (the number
of vertices retained by the pooling at scale 1), the scale-transform that has
been applied to it (if any), and the pooling state attached to it by a
`ParallelTransportPool` call (if any).  The pooling state is tagged with the
identifier of the forward pass whose pool call created it. -/

structure DataObj where
  objId : Nat
  numNodes : Nat
  numNodesPooled : Nat
  scaleApplied : Option Nat
  poolStateOf : Option Nat
deriving DecidableEq, Repr

/-- A fresh mesh sample as delivered by the data loader: no scale transform
applied, no pooling state attached. -/
def freshSample (objId numNodes numNodesPooled : Nat) : DataObj :=
  ⟨objId, numNodes, numNodesPooled, none, none⟩

/-- The attribute tuple `(edge_index, precomp, connection)` extracted from a
transformed data object.  Each component is an opaque handle identified by the
source object and the scale it was computed at. -/
structure Attributes where
  edge_index : Nat × Option Nat
  precomp : Nat × Option Nat
  connection : Nat × Option Nat
deriving DecidableEq, Repr

/-- Extract `(d.edge_index, d.precomp, d.connection)` from a data object. -/
def attributesOf (d : DataObj) : Attributes :=
  ⟨(d.objId, d.scaleApplied), (d.objId, d.scaleApplied), (d.objId, d.scaleApplied)⟩

/-- Modelled from the spec: the scale-0 transform (`ScaleMask(0)`,
`FilterNeighbours`, `HarmonicPrecomp`) selects the first scale's edges and
precomputes convolution components; it attaches scale-0 attributes to the
sample and is pure (the transform pipeline contract of §6). -/
def scale0_transform (d : DataObj) : DataObj :=
  { d with scaleApplied := some 0 }

/-- Modelled from the spec: the scale-1 transform, same contract at scale 1. -/
def scale1_transform (d : DataObj) : DataObj :=
  { d with scaleApplied := some 1 }

/-! ## Shape-level layer semantics

Tensor values are tracked by their shapes (a list of dimension sizes).
Feature tensors flowing through the residual blocks have shape
`[vertices, orders, channels, 2]` (complex numbers stored as a trailing
dimension of size 2, as produced by `torch.stack((x, zeros), dim=-1)`). -/

/-- A dense layer `nn.Linear(inF, outF)`: accepts a tensor whose last
dimension is `inF` and replaces it by `outF`; any other shape is an error. -/
structure Linear where
  inF : Nat
  outF : Nat
deriving DecidableEq, Repr

def Linear.apply (l : Linear) (sh : List Nat) : Option (List Nat) :=
  match sh with
  | [v, c] => if c = l.inF then some [v, l.outF] else none
  | _ => none

/-- Modelled from the spec: a `HarmonicResNetBlock(in_channels, out_channels,
max_order, n_rings, prev_order, last_layer)` maps a feature tensor of shape
`[V, prev_order+1, in_channels, 2]` to a new feature tensor of shape
`[V, max_order+1, out_channels, 2]` (the layer-library contract of §6: a
residual block takes the feature tensor plus edge/operator data and returns a
new feature tensor of the specified output width; the first encoder block
accepts a pure order-0 stream, all others the full multi-order stream). -/
structure HarmonicResNetBlock where
  in_channels : Nat
  out_channels : Nat
  maxOrder : Nat
  nRings : Nat
  prev_order : Nat
  last_layer : Bool
deriving DecidableEq, Repr

def HarmonicResNetBlock.apply (b : HarmonicResNetBlock) (sh : List Nat) :
    Option (List Nat) :=
  match sh with
  | [v, o, c, two] =>
      if two = 2 ∧ c = b.in_channels ∧ o = b.prev_order + 1 then
        some [v, b.maxOrder + 1, b.out_channels, 2]
      else none
  | _ => none

/-- Modelled from the spec: `ParallelTransportPool(1, scale1_transform)` takes
(features, mesh sample) and returns (pooled features, updated mesh sample,
pooled mesh sample).  The updated sample is the input sample with the pooling
state attached; the pooling state is identified by the forward pass that
created it (`passId`), standing for the identity of the pooling-state object.
The pooled sample is a new object carrying the coarse scale, to which the
pool applies its stored scale-1 transform. -/
def ParallelTransportPool.apply (passId : Nat) (sh : List Nat) (d : DataObj) :
    Option (List Nat) × DataObj × DataObj :=
  let dWithState : DataObj := { d with poolStateOf := some passId }
  let dPooled : DataObj :=
    scale1_transform ⟨d.objId + 1, d.numNodesPooled, d.numNodesPooled, none, none⟩
  match sh with
  | [_, o, c, two] => (some [d.numNodesPooled, o, c, two], dWithState, dPooled)
  | _ => (none, dWithState, dPooled)

/-- Modelled from the spec: `ParallelTransportUnpool(1)` takes (pooled
features, mesh sample carrying the pooling state) and broadcasts coarse
features back to the fine-scale vertices, preserving order and channel
dimensions. -/
def ParallelTransportUnpool.apply (sh : List Nat) (d : DataObj) :
    Option (List Nat) :=
  match sh with
  | [_, o, c, two] => some [d.numNodes, o, c, two]
  | _ => none

/-- Concatenation `torch.cat((a, b), dim=2)` along the channel axis; all
other dimensions must agree, channel counts add. -/
def catDim2 (sha shb : List Nat) : Option (List Nat) :=
  match sha, shb with
  | [v, o, c1, two], [v', o', c2, two'] =>
      if v = v' ∧ o = o' ∧ two = two' then some [v, o, c1 + c2, two] else none
  | _, _ => none

/-- The utility `magnitudes(x, keepdim=False)`: take the radial component of
the complex features, dropping the trailing complex dimension. -/
def magnitudes (sh : List Nat) : Option (List Nat) :=
  match sh with
  | [v, o, c, two] => if two = 2 then some [v, o, c] else none
  | _ => none

/-- Summation `x.sum(dim=1)`: sum the rotation-order streams, dropping
dimension 1. -/
def sumDim1 (sh : List Nat) : Option (List Nat) :=
  match sh with
  | [v, o, c] => if 0 < o then some [v, c] else none
  | _ => none

/-- The lift `torch.stack((x, zeros_like(x)), dim=-1).unsqueeze(1)`: turn a
real `[V, C]` tensor into a complex order-0 stream of shape `[V, 1, C, 2]`. -/
def toComplexStream (sh : List Nat) : Option (List Nat) :=
  match sh with
  | [v, c] => some [v, 1, c, 2]
  | _ => none

/-! ## The network -/

/-- Names of the residual blocks of `Net`. -/
inductive BlockId where
  | resnet_block11
  | resnet_block12
  | resnet_block21
  | resnet_block22
  | resnet_block31
  | resnet_block32
  | resnet_block41
  | resnet_block42
deriving DecidableEq, Repr

/-- Events recorded during a forward pass: residual-block invocations (with
the input shape and the attribute tuple passed), the pool call (with the pass
identifier and the identity/state of the sample object it returns as its
second result), the unpool call (with the identity and pooling state of its
sample argument), the skip concatenation (with both channel counts), and the
final log-softmax. -/
inductive FEvent where
  | blockCall (b : BlockId) (inShape : List Nat) (attr : Attributes)
  | poolCall (passId : Nat) (retObjId : Nat) (retPoolState : Option Nat)
  | unpoolCall (argObjId : Nat) (argPoolState : Option Nat)
  | catChannels (c1 c2 : Nat)
  | logSoftmaxEv (dim : Nat)
deriving DecidableEq, Repr

/-- The layers of `Net`, as constructed in `Net.__init__` (sizes are the
notebook's: `nf = [16, 32]`, `max_order = 1`, `n_rings = 2`; the final dense
layer has `num_nodes` outputs). -/
structure Net where
  lin0 : Linear
  resnet_block11 : HarmonicResNetBlock
  resnet_block12 : HarmonicResNetBlock
  resnet_block21 : HarmonicResNetBlock
  resnet_block22 : HarmonicResNetBlock
  resnet_block31 : HarmonicResNetBlock
  resnet_block32 : HarmonicResNetBlock
  resnet_block41 : HarmonicResNetBlock
  resnet_block42 : HarmonicResNetBlock
  lin3 : Linear
  lin4 : Linear
deriving DecidableEq, Repr

/-- The constructor `Net.__init__`: the fixed architecture of the notebook. -/
def Net.init (num_nodes : Nat) : Net where
  lin0 := ⟨3, nf[0]!⟩
  resnet_block11 := ⟨nf[0]!, nf[0]!, max_order, n_rings, 0, false⟩
  resnet_block12 := ⟨nf[0]!, nf[0]!, max_order, n_rings, max_order, false⟩
  resnet_block21 := ⟨nf[0]!, nf[1]!, max_order, n_rings, max_order, false⟩
  resnet_block22 := ⟨nf[1]!, nf[1]!, max_order, n_rings, max_order, false⟩
  resnet_block31 := ⟨nf[1]!, nf[1]!, max_order, n_rings, max_order, false⟩
  resnet_block32 := ⟨nf[1]!, nf[1]!, max_order, n_rings, max_order, false⟩
  resnet_block41 := ⟨nf[1]! + nf[0]!, nf[0]!, max_order, n_rings, max_order, false⟩
  resnet_block42 := ⟨nf[0]!, nf[0]!, max_order, n_rings, max_order, true⟩
  lin3 := ⟨nf[0]!, 256⟩
  lin4 := ⟨256, num_nodes⟩

/-- The method `Net.forward(data)`, embedded at the shape-and-dataflow level, following
the notebook line by line.  `passId` identifies this forward pass (each
invocation of the model during the run has a distinct one).  Returns the
output shape together with the event trace, or `none` on a shape error. -/
def Net.forward (net : Net) (passId : Nat) (data : DataObj) :
    Option (List Nat × List FEvent) :=
  -- x = data.pos; x = F.relu(self.lin0(x))
  match net.lin0.apply [data.numNodes, 3] with
  | none => none
  | some x =>
  -- x = torch.stack((x, torch.zeros_like(x)), dim=-1).unsqueeze(1)
  match toComplexStream x with
  | none => none
  | some x =>
  -- data_scale0 = scale0_transform(data)
  -- attributes = (data_scale0.edge_index, data_scale0.precomp, data_scale0.connection)
  let attributes := attributesOf (scale0_transform data)
  -- x = self.resnet_block11(x, *attributes)
  let ev11 := FEvent.blockCall BlockId.resnet_block11 x attributes
  match net.resnet_block11.apply x with
  | none => none
  | some x =>
  -- x_prepool = self.resnet_block12(x, *attributes)
  let ev12 := FEvent.blockCall BlockId.resnet_block12 x attributes
  match net.resnet_block12.apply x with
  | none => none
  | some x_prepool =>
  -- x, data, data_pooled = self.pool(x_prepool, data)
  let pooled := ParallelTransportPool.apply passId x_prepool data
  let data2 := pooled.2.1
  let data_pooled := pooled.2.2
  match pooled.1 with
  | none => none
  | some x =>
  let evPool := FEvent.poolCall passId data2.objId data2.poolStateOf
  -- attributes_pooled = (data_pooled.edge_index, data_pooled.precomp, data_pooled.connection)
  let attributes_pooled := attributesOf data_pooled
  -- x = self.resnet_block21(x, *attributes_pooled)
  let ev21 := FEvent.blockCall BlockId.resnet_block21 x attributes_pooled
  match net.resnet_block21.apply x with
  | none => none
  | some x =>
  -- x = self.resnet_block22(x, *attributes_pooled)
  let ev22 := FEvent.blockCall BlockId.resnet_block22 x attributes_pooled
  match net.resnet_block22.apply x with
  | none => none
  | some x =>
  -- x = self.resnet_block31(x, *attributes_pooled)
  let ev31 := FEvent.blockCall BlockId.resnet_block31 x attributes_pooled
  match net.resnet_block31.apply x with
  | none => none
  | some x =>
  -- x = self.resnet_block32(x, *attributes_pooled)
  let ev32 := FEvent.blockCall BlockId.resnet_block32 x attributes_pooled
  match net.resnet_block32.apply x with
  | none => none
  | some x =>
  -- x = self.unpool(x, data)
  let evUnpool := FEvent.unpoolCall data2.objId data2.poolStateOf
  match ParallelTransportUnpool.apply x data2 with
  | none => none
  | some x =>
  -- x = torch.cat((x, x_prepool), dim=2)
  let evCat := FEvent.catChannels (x.getD 2 0) (x_prepool.getD 2 0)
  match catDim2 x x_prepool with
  | none => none
  | some x =>
  -- x = self.resnet_block41(x, *attributes)
  let ev41 := FEvent.blockCall BlockId.resnet_block41 x attributes
  match net.resnet_block41.apply x with
  | none => none
  | some x =>
  -- x = self.resnet_block42(x, *attributes)
  let ev42 := FEvent.blockCall BlockId.resnet_block42 x attributes
  match net.resnet_block42.apply x with
  | none => none
  | some x =>
  -- x = magnitudes(x, keepdim=False)
  match magnitudes x with
  | none => none
  | some x =>
  -- x = x.sum(dim=1)
  match sumDim1 x with
  | none => none
  | some x =>
  -- x = F.relu(self.lin3(x)); x = F.dropout(x, training=self.training)
  match net.lin3.apply x with
  | none => none
  | some x =>
  -- x = self.lin4(x)
  match net.lin4.apply x with
  | none => none
  | some x =>
  -- return F.log_softmax(x, dim=1)
  some (x, [ev11, ev12, evPool, ev21, ev22, ev31, ev32, evUnpool, evCat,
            ev41, ev42, FEvent.logSoftmaxEv 1])

/-! ## Trace projections -/

/-- Input shape recorded for the first invocation of block `nm` in a trace. -/
def blockInShape (nm : BlockId) (tr : List FEvent) : Option (List Nat) :=
  tr.findSome? fun ev =>
    match ev with
    | FEvent.blockCall n sh _ => if n = nm then some sh else none
    | _ => none

/-- Attribute tuples passed to the two decoder blocks, in order. -/
def decoderAttrs (tr : List FEvent) : List Attributes :=
  tr.filterMap fun ev =>
    match ev with
    | FEvent.blockCall n _ a =>
        if n = BlockId.resnet_block41 ∨ n = BlockId.resnet_block42 then some a else none
    | _ => none

/-- Attribute tuples passed to the two encoder blocks, in order. -/
def encoderAttrs (tr : List FEvent) : List Attributes :=
  tr.filterMap fun ev =>
    match ev with
    | FEvent.blockCall n _ a =>
        if n = BlockId.resnet_block11 ∨ n = BlockId.resnet_block12 then some a else none
    | _ => none

/-- Pool events of a trace: pass id, identity of the sample object returned
as the pool's second result, and the pooling state attached to it. -/
def poolEvents (tr : List FEvent) : List (Nat × Nat × Option Nat) :=
  tr.filterMap fun ev =>
    match ev with
    | FEvent.poolCall p oid st => some (p, oid, st)
    | _ => none

/-- Unpool events of a trace: identity and pooling state of the sample
object the unpool operator was invoked with. -/
def unpoolEvents (tr : List FEvent) : List (Nat × Option Nat) :=
  tr.filterMap fun ev =>
    match ev with
    | FEvent.unpoolCall oid st => some (oid, st)
    | _ => none

/-! ## Value-level evaluation (the `test` function)

The model output for a sample is a list of per-vertex rows of log-probability
scores (rationals stand for the numeric values).  `test` iterates the test
loader (with `batch_size = 1` each batch is one sample, in dataset order),
takes the per-vertex arg-max, compares with the fixed identity target, and
accumulates the number of correct predictions. -/

/-- Arg-max of a row, as `tensor.max(dim)[1]`: the index of the first maximal
entry (auxiliary recursion carrying current index, best index, best value). -/
def argmaxAux : List ℚ → Nat → Nat → ℚ → Nat
  | [], _, bi, _ => bi
  | v :: rest, i, bi, bv =>
      if bv < v then argmaxAux rest (i + 1) i v else argmaxAux rest (i + 1) bi bv

/-- Arg-max of a row (0 on an empty row). -/
def argmax : List ℚ → Nat
  | [] => 0
  | v :: rest => argmaxAux rest 1 0 v

/-- Elementwise equality `a.eq(b)` of two 1-D integer tensors, with
broadcasting: sizes must be equal, or one of them must be 1; otherwise the
operation is a runtime error (`none`). -/
def tensorEq (a b : List Nat) : Option (List Bool) :=
  if a.length = b.length then
    some (List.zipWith (fun x y => decide (x = y)) a b)
  else if a.length = 1 then
    some (b.map fun y => decide (a.headD 0 = y))
  else if b.length = 1 then
    some (a.map fun x => decide (x = b.headD 0))
  else none

/-- The count `mask.sum().item()` of true entries of a boolean tensor. -/
def countTrue (l : List Bool) : Nat := l.countP id

/-- The per-vertex arg-max predictions `pred = model(data).max(1)[1]`. -/
def predOf (output : List (List ℚ)) : List Nat := output.map argmax

/-- Count, starting at vertex index `v`, of the predictions that equal the
index of their own vertex (the identity-correspondence criterion). -/
def countCorrectFrom : Nat → List Nat → Nat
  | _, [] => 0
  | v, p :: rest => (if p = v then 1 else 0) + countCorrectFrom (v + 1) rest

/-- Number of vertices whose arg-max predicted vertex index equals the
vertex's own index. -/
def countCorrect (pred : List Nat) : Nat := countCorrectFrom 0 pred

/-- One step of the accumulation `correct += pred.eq(target).sum().item()`;
a broadcasting error is fatal (`none`). -/
def testStep (model : DataObj → List (List ℚ)) (target : List Nat)
    (acc : Option Nat) (d : DataObj) : Option Nat :=
  match acc with
  | none => none
  | some c =>
      match tensorEq (predOf (model d)) target with
      | none => none
      | some eqv => some (c + countTrue eqv)

/-- The notebook's `test()` function: iterate the test loader accumulating
correct predictions, then return `correct / (len(test_dataset) * num_nodes)`.
The model is the (trained) network's value-level output, a parameter here
because the network's numeric weights are opaque to the driver. -/
def test (model : DataObj → List (List ℚ)) (test_dataset : List DataObj)
    (target : List Nat) (num_nodes : Nat) : Option ℚ :=
  match test_dataset.foldl (testStep model target) (some 0) with
  | none => none
  | some correct => some ((correct : ℚ) / ((test_dataset.length : ℚ) * (num_nodes : ℚ)))

/-- A concrete two-vertex model output (used in concrete instantiations):
scores predicting the identity correspondence. -/
def toyModel : DataObj → List (List ℚ) := fun _ => [[1, 0], [0, 1]]

/-- A concrete model producing one (empty) score row per vertex of its input
sample, so its prediction length always matches the sample's vertex count. -/
def fitModel : DataObj → List (List ℚ) := fun d => List.replicate d.numNodes []

/-- The global `num_nodes = train_dataset[0].num_nodes` (vertex count of the
first training sample; indexing an empty dataset is a runtime error, modelled
by the default value). -/
def num_nodes_of (train_dataset : List DataObj) : Nat :=
  (train_dataset.headD (freshSample 0 0 0)).numNodes

/-- The global `target = torch.arange(num_nodes, dtype=torch.long)`. -/
def mkTarget (num_nodes : Nat) : List Nat := List.range num_nodes

/-! ## The training loop state machine

System state visible to the driver: the model's parameters (tracked by a
version counter — each optimizer step replaces them) and train/eval mode
flag, and the optimizer's learning rate and internal step state.  The fixed
target vector is part of the state to make frame properties provable. -/

structure OptimState where
  lr : ℚ
  stepCount : Nat
deriving DecidableEq, Repr

structure ModelState where
  paramVersion : Nat
  training : Bool
deriving DecidableEq, Repr

structure SysState where
  model : ModelState
  optimizer : OptimState
  target : List Nat
deriving DecidableEq, Repr

/-- State after the setup cell: Adam optimizer with `lr=0.01`, identity
target of length `num_nodes`, freshly constructed model. -/
def setupState (num_nodes : Nat) : SysState :=
  { model := { paramVersion := 0, training := false }
    optimizer := { lr := 1/100, stepCount := 0 }
    target := mkTarget num_nodes }

/-- The operations performed for one training batch, in order. -/
inductive BatchOp where
  | toDevice
  | zeroGrad
  | forwardPass
  | nllLossAgainst (tgt : List Nat)
  | backward
  | optimizerStep
deriving DecidableEq, Repr

/-- The fixed per-batch operation sequence of the train loop body:
`data.to(device); optimizer.zero_grad();
F.nll_loss(model(data), target).backward(); optimizer.step()`. -/
def batchOps (tgt : List Nat) : List BatchOp :=
  [BatchOp.toDevice, BatchOp.zeroGrad, BatchOp.forwardPass,
   BatchOp.nllLossAgainst tgt, BatchOp.backward, BatchOp.optimizerStep]

/-- Process one training batch: the backward pass and the optimizer step
mutate the parameters in place and advance the optimizer's internal step
state; nothing else changes. -/
def trainBatch (s : SysState) : SysState × List BatchOp :=
  ({ s with
      model := { s.model with paramVersion := s.model.paramVersion + 1 }
      optimizer := { s.optimizer with stepCount := s.optimizer.stepCount + 1 } },
   batchOps s.target)

/-- The schedule step inside `train`: at `epoch == 60` set every param
group's learning rate to `0.001`, otherwise do nothing. -/
def scheduleStep (epoch : Nat) (s : SysState) : SysState :=
  if epoch = 60 then { s with optimizer := { s.optimizer with lr := 1/1000 } } else s

/-- Fold of the batch loop `for data in train_loader: ...`, accumulating the
trace of batch operations.  Batches are identified by opaque tokens. -/
def trainBatches (loader : List Nat) (s : SysState) : SysState × List BatchOp :=
  loader.foldl
    (fun acc _ =>
      let r := trainBatch acc.1
      (r.1, acc.2 ++ r.2))
    (s, [])

/-- The notebook's `train(epoch)`: set the model to train mode, apply the
one-shot schedule step, then process every batch of the training loader. -/
def train (loader : List Nat) (epoch : Nat) (s : SysState) :
    SysState × List BatchOp :=
  trainBatches loader (scheduleStep epoch { s with model := { s.model with training := true } })

/-- System state at the start of epoch `e` of the driver loop
`for epoch in range(100): train(epoch)` (i.e. after `e` completed calls). -/
def stateBeforeEpoch (loader : List Nat) (s0 : SysState) (e : Nat) : SysState :=
  (List.range e).foldl (fun s ep => (train loader ep s).1) s0

/-- Driver loop truncated after `n` epochs (the loop body of
`for epoch in range(n): train(epoch)`), with the trace of every epoch's
batch operations. -/
def runEpochsUpTo (loader : List Nat) (s0 : SysState) (n : Nat) :
    SysState × List (Nat × List BatchOp) :=
  (List.range n).foldl
    (fun acc e =>
      let r := train loader e acc.1
      (r.1, acc.2 ++ [(e, r.2)]))
    (s0, [])

/-- The driver loop `for epoch in range(100): train(epoch)`, with the trace
of every epoch's batch operations. -/
def runTraining (loader : List Nat) (s0 : SysState) :
    SysState × List (Nat × List BatchOp) :=
  runEpochsUpTo loader s0 100

/-- Learning rate in effect while the batches of epoch `e` are processed
(the batch loop never changes the rate, so it is the rate after `train e`
returns). -/
def lrDuringEpoch (loader : List Nat) (s0 : SysState) (e : Nat) : ℚ :=
  (stateBeforeEpoch loader s0 (e + 1)).optimizer.lr

/-! ## Evaluation of the forward pass -/

/-- The scale-1-transformed pooled mesh sample produced by the pool call. -/
def pooledSampleOf (d : DataObj) : DataObj :=
  scale1_transform ⟨d.objId + 1, d.numNodesPooled, d.numNodesPooled, none, none⟩

lemma forward_eval (N p : Nat) (d : DataObj) :
    Net.forward (Net.init N) p d =
      some ([d.numNodes, N],
        [FEvent.blockCall BlockId.resnet_block11 [d.numNodes, 1, 16, 2]
            (attributesOf (scale0_transform d)),
         FEvent.blockCall BlockId.resnet_block12 [d.numNodes, 2, 16, 2]
            (attributesOf (scale0_transform d)),
         FEvent.poolCall p d.objId (some p),
         FEvent.blockCall BlockId.resnet_block21 [d.numNodesPooled, 2, 16, 2]
            (attributesOf (pooledSampleOf d)),
         FEvent.blockCall BlockId.resnet_block22 [d.numNodesPooled, 2, 32, 2]
            (attributesOf (pooledSampleOf d)),
         FEvent.blockCall BlockId.resnet_block31 [d.numNodesPooled, 2, 32, 2]
            (attributesOf (pooledSampleOf d)),
         FEvent.blockCall BlockId.resnet_block32 [d.numNodesPooled, 2, 32, 2]
            (attributesOf (pooledSampleOf d)),
         FEvent.unpoolCall d.objId (some p),
         FEvent.catChannels 32 16,
         FEvent.blockCall BlockId.resnet_block41 [d.numNodes, 2, 48, 2]
            (attributesOf (scale0_transform d)),
         FEvent.blockCall BlockId.resnet_block42 [d.numNodes, 2, 16, 2]
            (attributesOf (scale0_transform d)),
         FEvent.logSoftmaxEv 1]) := by
  simp [Net.forward, Net.init, Linear.apply, toComplexStream,
        HarmonicResNetBlock.apply, ParallelTransportPool.apply,
        ParallelTransportUnpool.apply, catDim2, magnitudes, sumDim1,
        attributesOf, scale0_transform, scale1_transform, pooledSampleOf,
        nf, max_order, n_rings]

/-! ## Claim theorems: forward pass -/

/-- C4.  For every input sample and every forward pass, `Net.forward` succeeds
and returns, for each of the sample's vertices, a vector of length exactly
`num_nodes` (the width of the second dense layer `lin4`) and the final
operation applied is the log-softmax over dimension 1, so the output is a
log-normalized distribution over vertex indices.  The forward computation
does not depend on the epoch, so this holds at every epoch. -/
theorem forward_shape_C4 (N p : Nat) (d : DataObj) :
    ∃ tr, Net.forward (Net.init N) p d = some ([d.numNodes, N], tr) ∧
      tr.getLast? = some (FEvent.logSoftmaxEv 1) ∧
      (Net.init N).lin4.outF = N := by
  exact ⟨_, forward_eval N p d, rfl, rfl⟩

/-- C7.  In every forward pass both decoder blocks are invoked with exactly
the scale-0 attribute tuple `(edge_index, precomp, connection)` computed from
`scale0_transform(data)` before pooling — the same tuple the encoder blocks
received — and that tuple is distinct from the pooled sample's attributes
(so the reassignment of `data` by the pooling call does not leak into the
decoder invocations). -/
theorem decoder_attrs_C7 (N p : Nat) (d : DataObj) :
    ∃ out tr, Net.forward (Net.init N) p d = some (out, tr) ∧
      decoderAttrs tr =
        [attributesOf (scale0_transform d), attributesOf (scale0_transform d)] ∧
      encoderAttrs tr = decoderAttrs tr ∧
      attributesOf (scale0_transform d) ≠ attributesOf (pooledSampleOf d) := by
  refine ⟨_, _, forward_eval N p d, ?_, ?_, ?_⟩
  · simp [decoderAttrs]
  · simp [encoderAttrs, decoderAttrs]
  · simp [attributesOf, scale0_transform, pooledSampleOf, scale1_transform,
          Attributes.mk.injEq, Prod.ext_iff]

/-- Witness for C7 at concrete inputs. -/
theorem decoder_attrs_C7_witness :
    ∃ out tr, Net.forward (Net.init 4) 0 (freshSample 0 4 1) = some (out, tr) ∧
      decoderAttrs tr =
        [attributesOf (scale0_transform (freshSample 0 4 1)),
         attributesOf (scale0_transform (freshSample 0 4 1))] ∧
      encoderAttrs tr = decoderAttrs tr ∧
      attributesOf (scale0_transform (freshSample 0 4 1)) ≠
        attributesOf (pooledSampleOf (freshSample 0 4 1)) :=
  decoder_attrs_C7 4 0 (freshSample 0 4 1)

/-- C8.  In every forward pass the unpooling operator is invoked with exactly
the mesh-sample object returned (as its second result) by the paired pooling
call of the same pass, carrying the pooling state created by that call; and
the pooling states consumed by unpooling in two distinct forward passes are
distinct, so a pooling-state object is never reused across passes. -/
theorem pool_state_C8 (N p q : Nat) (d e : DataObj) :
    (∃ out tr, Net.forward (Net.init N) p d = some (out, tr) ∧
        poolEvents tr = [(p, d.objId, some p)] ∧
        unpoolEvents tr = [(d.objId, some p)]) ∧
    (p ≠ q →
      (Net.forward (Net.init N) p d).map (fun r => unpoolEvents r.2) ≠
        (Net.forward (Net.init N) q e).map (fun r => unpoolEvents r.2)) := by
  constructor
  · refine ⟨_, _, forward_eval N p d, ?_, ?_⟩
    · simp [poolEvents]
    · simp [unpoolEvents]
  · intro hpq
    have h1 : (Net.forward (Net.init N) p d).map (fun r => unpoolEvents r.2) =
        some [(d.objId, some p)] := by rw [forward_eval]; rfl
    have h2 : (Net.forward (Net.init N) q e).map (fun r => unpoolEvents r.2) =
        some [(e.objId, some q)] := by rw [forward_eval]; rfl
    rw [h1, h2]
    intro hc
    simp only [Option.some.injEq, List.cons.injEq, Prod.mk.injEq, and_true] at hc
    exact hpq hc.2

/-- Witness for C8 at concrete inputs. -/
theorem pool_state_C8_witness :
    (∃ out tr, Net.forward (Net.init 4) 0 (freshSample 0 4 1) = some (out, tr) ∧
        poolEvents tr = [(0, 0, some 0)] ∧
        unpoolEvents tr = [(0, some 0)]) ∧
    (Net.forward (Net.init 4) 0 (freshSample 0 4 1)).map (fun r => unpoolEvents r.2) ≠
      (Net.forward (Net.init 4) 1 (freshSample 0 4 1)).map (fun r => unpoolEvents r.2) :=
  ⟨(pool_state_C8 4 0 1 (freshSample 0 4 1) (freshSample 0 4 1)).1,
   (pool_state_C8 4 0 1 (freshSample 0 4 1) (freshSample 0 4 1)).2 (by decide)⟩

/-- C6, counterexample to "concatenation doubles the channel count at the
first decoder block's input": at a concrete sample the concatenation combines
32 unpooled channels with 16 skip channels, and the first decoder block's
input has 48 channels, which is neither `2 * 32` nor `2 * 16`. -/
theorem cat_double_cex_C6 :
    ∃ out tr, Net.forward (Net.init 8) 0 (freshSample 0 8 2) = some (out, tr) ∧
      FEvent.catChannels 32 16 ∈ tr ∧
      blockInShape BlockId.resnet_block41 tr = some [8, 2, 48, 2] ∧
      ¬ (48 = 2 * 32 ∨ 48 = 2 * 16) := by
  refine ⟨_, _, forward_eval 8 0 (freshSample 0 8 2), ?_, ?_, by decide⟩
  · simp [freshSample]
  · simp [blockInShape, freshSample]

/-- C6 as amended.  In every forward pass the unpooled output (with `nf[1]`
channels) is concatenated — channel counts adding, not summed elementwise —
along the channel axis with the saved pre-pooling features (with `nf[0]`
channels), so the first decoder block's input carries `nf[1] + nf[0]`
channels, exactly the input width `resnet_block41` was constructed with. -/
theorem cat_channels_C6 (N p : Nat) (d : DataObj) :
    ∃ out tr, Net.forward (Net.init N) p d = some (out, tr) ∧
      FEvent.catChannels nf[1]! nf[0]! ∈ tr ∧
      blockInShape BlockId.resnet_block41 tr = some [d.numNodes, 2, nf[1]! + nf[0]!, 2] ∧
      (Net.init N).resnet_block41.in_channels = nf[1]! + nf[0]! := by
  refine ⟨_, _, forward_eval N p d, ?_, ?_, rfl⟩
  · simp [nf]
  · simp [blockInShape, nf]

/-! ## Lemmas about the training loop -/

lemma trainBatch_fst (s : SysState) :
    (trainBatch s).1 =
      { s with
          model := { s.model with paramVersion := s.model.paramVersion + 1 }
          optimizer := { s.optimizer with stepCount := s.optimizer.stepCount + 1 } } := rfl

lemma trainBatches_go (loader : List Nat) (s : SysState) (tr : List BatchOp) :
    loader.foldl
        (fun acc _ =>
          let r := trainBatch acc.1
          (r.1, acc.2 ++ r.2))
        (s, tr) =
      ((trainBatches loader s).1, tr ++ (trainBatches loader s).2) := by
  induction loader generalizing s tr with
  | nil => simp [trainBatches]
  | cons b rest ih =>
      simp only [trainBatches, List.foldl_cons]
      rw [ih, ih]
      simp

lemma trainBatches_cons (b : Nat) (rest : List Nat) (s : SysState) :
    trainBatches (b :: rest) s =
      ((trainBatches rest (trainBatch s).1).1,
        (trainBatch s).2 ++ (trainBatches rest (trainBatch s).1).2) := by
  simp only [trainBatches, List.foldl_cons]
  rw [trainBatches_go]
  simp [trainBatches]

lemma trainBatches_fst (loader : List Nat) (s : SysState) :
    (trainBatches loader s).1 =
      { s with
          model := { s.model with paramVersion := s.model.paramVersion + loader.length }
          optimizer := { s.optimizer with stepCount := s.optimizer.stepCount + loader.length } } := by
  induction loader generalizing s with
  | nil => simp [trainBatches]
  | cons b rest ih =>
      rw [trainBatches_cons, ih, trainBatch_fst]
      simp only [List.length_cons]
      congr 1 <;> simp <;> omega

lemma trainBatches_snd (loader : List Nat) (s : SysState) :
    (trainBatches loader s).2 =
      (loader.map fun _ => batchOps s.target).flatten := by
  induction loader generalizing s with
  | nil => simp [trainBatches]
  | cons b rest ih =>
      rw [trainBatches_cons, ih]
      simp [trainBatch]

lemma train_eq (loader : List Nat) (e : Nat) (s : SysState) :
    train loader e s =
      ({ model := { paramVersion := s.model.paramVersion + loader.length, training := true },
         optimizer := { lr := if e = 60 then 1/1000 else s.optimizer.lr,
                        stepCount := s.optimizer.stepCount + loader.length },
         target := s.target },
       (loader.map fun _ => batchOps s.target).flatten) := by
  unfold train scheduleStep
  by_cases h : e = 60 <;>
    simp [h, trainBatches_fst, trainBatches_snd, Prod.ext_iff]

lemma stateBeforeEpoch_zero (loader : List Nat) (s0 : SysState) :
    stateBeforeEpoch loader s0 0 = s0 := rfl

lemma stateBeforeEpoch_succ (loader : List Nat) (s0 : SysState) (e : Nat) :
    stateBeforeEpoch loader s0 (e + 1) =
      (train loader e (stateBeforeEpoch loader s0 e)).1 := by
  simp [stateBeforeEpoch, List.range_succ]

lemma stateBeforeEpoch_target (loader : List Nat) (s0 : SysState) (e : Nat) :
    (stateBeforeEpoch loader s0 e).target = s0.target := by
  induction e with
  | zero => rfl
  | succ e ih => rw [stateBeforeEpoch_succ, train_eq]; exact ih

lemma stateBeforeEpoch_lr (loader : List Nat) (s0 : SysState) (e : Nat) :
    (stateBeforeEpoch loader s0 e).optimizer.lr =
      if e ≤ 60 then s0.optimizer.lr else 1/1000 := by
  induction e with
  | zero => simp [stateBeforeEpoch_zero]
  | succ e ih =>
      rw [stateBeforeEpoch_succ, train_eq]
      by_cases h : e = 60
      · simp [h]
      · by_cases h' : e ≤ 60
        · have : e < 60 := lt_of_le_of_ne h' h
          simp only [h, if_false, ih, h', if_true]
          rw [if_pos (by omega)]
        · simp only [h, if_false, ih, h', if_false]
          rw [if_neg (by omega)]

lemma stateBeforeEpoch_stepCount (loader : List Nat) (s0 : SysState) (e : Nat) :
    (stateBeforeEpoch loader s0 e).optimizer.stepCount =
      s0.optimizer.stepCount + e * loader.length := by
  induction e with
  | zero => simp [stateBeforeEpoch_zero]
  | succ e ih =>
      rw [stateBeforeEpoch_succ, train_eq]
      simp only [ih]
      ring

lemma runEpochsUpTo_zero (loader : List Nat) (s0 : SysState) :
    runEpochsUpTo loader s0 0 = (s0, []) := rfl

lemma runEpochsUpTo_succ (loader : List Nat) (s0 : SysState) (n : Nat) :
    runEpochsUpTo loader s0 (n + 1) =
      ((train loader n (runEpochsUpTo loader s0 n).1).1,
        (runEpochsUpTo loader s0 n).2 ++
          [(n, (train loader n (runEpochsUpTo loader s0 n).1).2)]) := by
  simp [runEpochsUpTo, List.range_succ]

lemma runEpochsUpTo_fst (loader : List Nat) (s0 : SysState) (n : Nat) :
    (runEpochsUpTo loader s0 n).1 = stateBeforeEpoch loader s0 n := by
  induction n with
  | zero => rfl
  | succ n ih => rw [runEpochsUpTo_succ, stateBeforeEpoch_succ, ih]

lemma runEpochsUpTo_snd (loader : List Nat) (s0 : SysState) (n : Nat) :
    (runEpochsUpTo loader s0 n).2 =
      (List.range n).map
        fun e => (e, (loader.map fun _ => batchOps s0.target).flatten) := by
  induction n with
  | zero => rfl
  | succ n ih =>
      rw [runEpochsUpTo_succ, ih, runEpochsUpTo_fst, List.range_succ]
      rw [train_eq]
      simp [stateBeforeEpoch_target]

lemma runTraining_snd (loader : List Nat) (s0 : SysState) :
    (runTraining loader s0).2 =
      (List.range 100).map
        fun e => (e, (loader.map fun _ => batchOps s0.target).flatten) :=
  runEpochsUpTo_snd loader s0 100

/-! ## Claim theorems: training loop -/

/-- C1.  The optimizer's learning rate equals its initial value `0.01` during
every epoch `0..59` and the reduced value `0.001` during every epoch
`60..99`; the rate still has its initial value when the epoch-60 call of
`train` begins, the schedule step at the start of that call sets it to
`0.001`, the batch loop never modifies it, and no call of `train` other than
the epoch-60 one modifies it. -/
theorem lr_schedule_C1 (loader : List Nat) (N : Nat) :
    (∀ e, e < 60 → lrDuringEpoch loader (setupState N) e = 1/100) ∧
    (∀ e, 60 ≤ e → e ≤ 99 → lrDuringEpoch loader (setupState N) e = 1/1000) ∧
    ((stateBeforeEpoch loader (setupState N) 60).optimizer.lr = 1/100 ∧
      ∀ s : SysState, (scheduleStep 60 s).optimizer.lr = 1/1000) ∧
    (∀ s : SysState, (trainBatches loader s).1.optimizer.lr = s.optimizer.lr) ∧
    (∀ e s, e ≠ 60 → (train loader e s).1.optimizer.lr = s.optimizer.lr) := by
  refine ⟨?_, ?_, ⟨?_, ?_⟩, ?_, ?_⟩
  · intro e he
    unfold lrDuringEpoch
    rw [stateBeforeEpoch_lr]
    simp [setupState, Nat.succ_le_of_lt he, if_pos (by omega : e + 1 ≤ 60)]
  · intro e he _
    unfold lrDuringEpoch
    rw [stateBeforeEpoch_lr]
    rw [if_neg (by omega : ¬ e + 1 ≤ 60)]
  · rw [stateBeforeEpoch_lr]
    simp [setupState]
  · intro s
    simp [scheduleStep]
  · intro s
    rw [trainBatches_fst]
  · intro e s he
    rw [train_eq]
    simp [he]

/-- Witness for C1 at concrete inputs. -/
theorem lr_schedule_C1_witness :
    lrDuringEpoch [5] (setupState 3) 0 = 1/100 ∧
    lrDuringEpoch [5] (setupState 3) 99 = 1/1000 ∧
    (train [5] 61 (setupState 3)).1.optimizer.lr = (setupState 3).optimizer.lr :=
  ⟨(lr_schedule_C1 [5] 3).1 0 (by decide),
   (lr_schedule_C1 [5] 3).2.1 99 (by decide) (by decide),
   (lr_schedule_C1 [5] 3).2.2.2.2 61 (setupState 3) (by decide)⟩

/-- C10.  For every epoch other than 60, `train` leaves the optimizer's
learning rate (and the target and the loader, which are not fields of the
mutated state at all) unchanged: the resulting state differs from the input
state only in the model's parameters, the optimizer's internal step state,
and the model's train/eval mode flag. -/
theorem train_frame_C10 (loader : List Nat) (e : Nat) (s : SysState) (h : e ≠ 60) :
    (train loader e s).1 =
      { model := { paramVersion := s.model.paramVersion + loader.length, training := true },
        optimizer := { lr := s.optimizer.lr,
                       stepCount := s.optimizer.stepCount + loader.length },
        target := s.target } := by
  rw [train_eq]
  simp [h]

/-- Witness for C10 at concrete inputs. -/
theorem train_frame_C10_witness :
    (train [1, 2] 0 (setupState 3)).1 =
      { model := { paramVersion := (setupState 3).model.paramVersion + 2, training := true },
        optimizer := { lr := (setupState 3).optimizer.lr,
                       stepCount := (setupState 3).optimizer.stepCount + 2 },
        target := (setupState 3).target } :=
  train_frame_C10 [1, 2] 0 (setupState 3) (by decide)

/-- C5.  The training driver runs exactly the epochs `0..99`, in order, with
no early stopping; within each epoch every training batch is processed by the
fixed sequence (move to device, reset gradients, forward pass, loss against
the fixed target, backpropagate, one optimizer step), and over the whole run
the optimizer performs exactly one step per batch (`100 * |loader|` in
total). -/
theorem training_loop_C5 (loader : List Nat) (N : Nat) :
    ((runTraining loader (setupState N)).2.map Prod.fst = List.range 100) ∧
    (∀ p ∈ (runTraining loader (setupState N)).2,
        p.2 = (loader.map fun _ =>
          [BatchOp.toDevice, BatchOp.zeroGrad, BatchOp.forwardPass,
           BatchOp.nllLossAgainst (List.range N), BatchOp.backward,
           BatchOp.optimizerStep]).flatten) ∧
    (runTraining loader (setupState N)).1.optimizer.stepCount = 100 * loader.length := by
  refine ⟨?_, ?_, ?_⟩
  · rw [runTraining_snd, List.map_map]
    show List.map id (List.range 100) = List.range 100
    exact List.map_id _
  · intro p hp
    rw [runTraining_snd] at hp
    obtain ⟨e, _, rfl⟩ := List.mem_map.mp hp
    simp [batchOps, setupState, mkTarget]
  · show (runEpochsUpTo loader (setupState N) 100).1.optimizer.stepCount = _
    rw [runEpochsUpTo_fst, stateBeforeEpoch_stepCount]
    simp [setupState]

/-- Witness for C5 at concrete inputs. -/
theorem training_loop_C5_witness :
    ((runTraining [7] (setupState 2)).2.map Prod.fst = List.range 100) ∧
    (((0 : Nat),
        [BatchOp.toDevice, BatchOp.zeroGrad, BatchOp.forwardPass,
         BatchOp.nllLossAgainst (List.range 2), BatchOp.backward,
         BatchOp.optimizerStep]).2 =
      ([7].map fun _ =>
        [BatchOp.toDevice, BatchOp.zeroGrad, BatchOp.forwardPass,
         BatchOp.nllLossAgainst (List.range 2), BatchOp.backward,
         BatchOp.optimizerStep]).flatten) := by
  constructor
  · exact (training_loop_C5 [7] 2).1
  · refine (training_loop_C5 [7] 2).2.1 _ ?_
    rw [runTraining_snd]
    refine List.mem_map.mpr ⟨0, by simp, ?_⟩
    simp [setupState, mkTarget, batchOps]

/-- C3.  The target vector is `arange(num_nodes)` (the label of vertex `i`
is `i` itself), it is constructed once at setup, every batch's loss in the
whole 100-epoch run is the negative-log-likelihood against exactly this
vector, and the vector is unchanged at the end of the run. -/
theorem target_fixed_C3 (loader : List Nat) (N : Nat) :
    ((setupState N).target = List.range N) ∧
    (∀ i, i < N → (setupState N).target[i]? = some i) ∧
    (∀ p ∈ (runTraining loader (setupState N)).2, ∀ op ∈ p.2,
        ∀ t, op = BatchOp.nllLossAgainst t → t = List.range N) ∧
    ((runTraining loader (setupState N)).1.target = List.range N) := by
  refine ⟨rfl, ?_, ?_, ?_⟩
  · intro i hi
    simp [setupState, mkTarget, List.getElem?_range hi]
  · intro p hp op hop t hopt
    rw [runTraining_snd] at hp
    obtain ⟨e, _, rfl⟩ := List.mem_map.mp hp
    simp only at hop
    rw [List.mem_flatten] at hop
    obtain ⟨l, hl, hopl⟩ := hop
    obtain ⟨_, _, rfl⟩ := List.mem_map.mp hl
    subst hopt
    simp [batchOps, setupState, mkTarget] at hopl
    exact hopl
  · show (runEpochsUpTo loader (setupState N) 100).1.target = _
    rw [runEpochsUpTo_fst, stateBeforeEpoch_target]
    rfl

/-- Witness for C3 at concrete inputs. -/
theorem target_fixed_C3_witness :
    (setupState 2).target[1]? = some 1 ∧ List.range 2 = List.range 2 := by
  constructor
  · exact (target_fixed_C3 [7] 2).2.1 1 (by decide)
  · refine (target_fixed_C3 [7] 2).2.2.1
      (0, ([7].map fun _ => batchOps (mkTarget 2)).flatten) ?_
      (BatchOp.nllLossAgainst (List.range 2)) ?_ (List.range 2) rfl
    · rw [runTraining_snd]
      exact List.mem_map.mpr ⟨0, by simp, by simp [setupState, mkTarget]⟩
    · simp [batchOps, mkTarget]

/-! ## Lemmas about the test function -/

lemma countTrue_cons (b : Bool) (l : List Bool) :
    countTrue (b :: l) = (if b then 1 else 0) + countTrue l := by
  simp only [countTrue, List.countP_cons, id]
  cases b <;> simp [Nat.add_comm]

lemma countTrue_zip_range' (pred : List Nat) :
    ∀ k, countTrue (List.zipWith (fun x y => decide (x = y)) pred
        (List.range' k pred.length)) = countCorrectFrom k pred := by
  induction pred with
  | nil => intro k; rfl
  | cons a rest ih =>
      intro k
      rw [show (a :: rest).length = rest.length + 1 from rfl, List.range'_succ,
          List.zipWith_cons_cons, countTrue_cons, ih (k + 1)]
      show _ = (if a = k then 1 else 0) + countCorrectFrom (k + 1) rest
      by_cases h : a = k <;> simp [h]

lemma countCorrectFrom_le (pred : List Nat) :
    ∀ k, countCorrectFrom k pred ≤ pred.length := by
  induction pred with
  | nil => intro k; exact Nat.le_refl 0
  | cons a rest ih =>
      intro k
      have := ih (k + 1)
      by_cases h : a = k <;> simp [countCorrectFrom, h] <;> omega

lemma testStep_some (model : DataObj → List (List ℚ)) (N : Nat) (c : Nat)
    (d : DataObj) (h : (predOf (model d)).length = N) :
    testStep model (mkTarget N) (some c) d =
      some (c + countCorrect (predOf (model d))) := by
  unfold testStep
  have hlen : (predOf (model d)).length = (mkTarget N).length := by
    rw [h, mkTarget, List.length_range]
  have hr : mkTarget N = List.range' 0 (predOf (model d)).length := by
    rw [h, mkTarget, List.range_eq_range']
  rw [tensorEq, if_pos hlen, hr]
  show some (c + countTrue (List.zipWith (fun x y => decide (x = y))
      (predOf (model d)) (List.range' 0 (predOf (model d)).length))) =
    some (c + countCorrect (predOf (model d)))
  rw [countTrue_zip_range']
  rfl

lemma test_fold (model : DataObj → List (List ℚ)) (N : Nat) :
    ∀ (ds : List DataObj) (c : Nat),
      (∀ d ∈ ds, (predOf (model d)).length = N) →
      ds.foldl (testStep model (mkTarget N)) (some c) =
        some (c + (ds.map fun d => countCorrect (predOf (model d))).sum) := by
  intro ds
  induction ds with
  | nil => intro c _; simp
  | cons d rest ih =>
      intro c h
      rw [List.foldl_cons,
          testStep_some model N c d (h d (List.mem_cons_self d rest)),
          ih _ (fun d' hd' => h d' (List.mem_cons_of_mem d hd'))]
      simp [Nat.add_assoc]

/-! ## Claim theorems: evaluation -/

/-- C2.  Under the shape precondition that every test sample's prediction
vector has length `num_nodes`, the `test` function returns exactly the number
of correct per-vertex arg-max predictions accumulated over all test samples,
divided by the number of test samples times `num_nodes`, where a prediction
is correct precisely when the arg-max predicted vertex index equals the
vertex's own index. -/
theorem test_accuracy_C2 (model : DataObj → List (List ℚ)) (ds : List DataObj)
    (N : Nat) (h : ∀ d ∈ ds, (predOf (model d)).length = N) :
    test model ds (mkTarget N) N =
      some (((ds.map fun d => countCorrect (predOf (model d))).sum : ℚ) /
        ((ds.length : ℚ) * (N : ℚ))) := by
  unfold test
  rw [test_fold model N ds 0 h]
  simp

/-- Witness for C2 at concrete inputs. -/
theorem test_accuracy_C2_witness :
    test toyModel [freshSample 0 2 1] (mkTarget 2) 2 =
      some ((([freshSample 0 2 1].map fun d =>
          countCorrect (predOf (toyModel d))).sum : ℚ) /
        (([freshSample 0 2 1].length : ℚ) * ((2 : Nat) : ℚ))) :=
  test_accuracy_C2 toyModel [freshSample 0 2 1] 2 (fun _ _ => rfl)

/-- C9.  `num_nodes` is read from the first training sample, and under the
cross-dataset precondition that every test sample has exactly that vertex
count (together with the architectural fact that a sample's prediction
vector has one entry per vertex of the sample), the evaluation succeeds and
the returned accuracy lies in `[0, 1]`.  Without the precondition the
element-wise comparison is ill-defined: at a concrete test sample whose
vertex count differs from the first training sample's, `test` fails. -/
theorem accuracy_bounds_C9 (model : DataObj → List (List ℚ))
    (train_dataset test_dataset : List DataObj)
    (hm : ∀ d ∈ test_dataset, (predOf (model d)).length = d.numNodes)
    (h : ∀ d ∈ test_dataset, d.numNodes = num_nodes_of train_dataset) :
    (∃ a, test model test_dataset (mkTarget (num_nodes_of train_dataset))
        (num_nodes_of train_dataset) = some a ∧ 0 ≤ a ∧ a ≤ 1) ∧
    test toyModel [freshSample 0 2 1] (mkTarget 3) 3 = none := by
  constructor
  · have hlen : ∀ d ∈ test_dataset,
        (predOf (model d)).length = num_nodes_of train_dataset :=
      fun d hd => (hm d hd).trans (h d hd)
    unfold test
    rw [test_fold model (num_nodes_of train_dataset) test_dataset 0 hlen]
    simp only [Nat.zero_add]
    refine ⟨_, rfl, ?_, ?_⟩
    · exact div_nonneg (by positivity) (by positivity)
    · have hS : (test_dataset.map fun d => countCorrect (predOf (model d))).sum ≤
          test_dataset.length * num_nodes_of train_dataset := by
        have hb : ∀ x ∈ test_dataset.map fun d => countCorrect (predOf (model d)),
            x ≤ num_nodes_of train_dataset := by
          intro x hx
          obtain ⟨d, hd, rfl⟩ := List.mem_map.mp hx
          calc countCorrect (predOf (model d)) ≤ (predOf (model d)).length :=
                countCorrectFrom_le _ 0
            _ = num_nodes_of train_dataset := hlen d hd
        have := List.sum_le_card_nsmul _ _ hb
        simpa [smul_eq_mul] using this
      rcases Nat.eq_zero_or_pos
          (test_dataset.length * num_nodes_of train_dataset) with h0 | hpos
      · have hS0 : (test_dataset.map fun d => countCorrect (predOf (model d))).sum = 0 := by
          omega
        simp [hS0]
      · rw [div_le_one (by exact_mod_cast hpos)]
        exact_mod_cast hS
  · rfl

/-- Witness for C9 at concrete inputs. -/
theorem accuracy_bounds_C9_witness :
    (∃ a, test fitModel [freshSample 0 2 1]
        (mkTarget (num_nodes_of [freshSample 1 2 1]))
        (num_nodes_of [freshSample 1 2 1]) = some a ∧ 0 ≤ a ∧ a ≤ 1) ∧
    test toyModel [freshSample 0 2 1] (mkTarget 3) 3 = none :=
  accuracy_bounds_C9 fitModel [freshSample 1 2 1] [freshSample 0 2 1]
    (by intro d hd; simp [fitModel, predOf])
    (by intro d hd; rw [List.mem_singleton] at hd; subst hd; rfl)

end HSN
